import Mathlib

/-!
Verification development for the mmdbwriter core (MaxMind DB search-tree
writer).  The Go source of tree.go is shallowly embedded: Go non-negative
ints become Nat, byte slices become List Nat (each entry < 256 where the
source guarantees it), fallible operations return Option or carry an
explicit error component.  Parts of the repository that are referenced by
tree.go but whose source is not available (the trie node type, the data
writer, and the value serializer) are modelled from the specification and
marked as such in their doc comments.
-/

namespace Mmdb

/-- Error kinds surfaced by the embedded operations, named after the
specification's error catalogue.  The source returns string errors; each
constructor corresponds to one error-return site of tree.go. -/
inductive Err where
  | invalidPrefixLen
  | unsupportedIPVersion
  | unsupportedRecordSize
  | notFinalized
  | internalInconsistency
deriving DecidableEq, Repr

/-- ASCII bytes of a string (all strings used here are ASCII, so UTF-8
bytes coincide with code points). -/
def asciiBytes (s : String) : List Nat :=
  s.data.map Char.toNat

/-- Packing switch of copyRecord (tree.go): fills the 2*recordSize/8-byte
record buffer from the (left, right) record values exactly as the Go
switch does; none models the unsupported-record-size error branch.  Go's
byte(e) cast is the final &&& 255. -/
def packRecord (recordSize left right : Nat) : Option (List Nat) :=
  match recordSize with
  | 24 => some [left >>> 16 &&& 255, left >>> 8 &&& 255, left &&& 255,
                right >>> 16 &&& 255, right >>> 8 &&& 255, right &&& 255]
  | 28 => some [left >>> 16 &&& 255, left >>> 8 &&& 255, left &&& 255,
                ((left >>> 24 &&& 15) <<< 4 ||| (right >>> 24 &&& 15)) &&& 255,
                right >>> 16 &&& 255, right >>> 8 &&& 255, right &&& 255]
  | 32 => some [left >>> 24 &&& 255, left >>> 16 &&& 255, left >>> 8 &&& 255, left &&& 255,
                right >>> 24 &&& 255, right >>> 16 &&& 255, right >>> 8 &&& 255, right &&& 255]
  | _ => none

/-- Record layout reader written from the specification's words (record
packer bit layout) to be compared with packRecord: reconstructs the
(left, right) pair from the packed bytes. -/
def unpackRecord (recordSize : Nat) (b : List Nat) : Option (Nat × Nat) :=
  match recordSize with
  | 24 => some (b.getD 0 0 * 65536 + b.getD 1 0 * 256 + b.getD 2 0,
                b.getD 3 0 * 65536 + b.getD 4 0 * 256 + b.getD 5 0)
  | 28 => some ((b.getD 3 0 >>> 4) * 16777216 + b.getD 0 0 * 65536 + b.getD 1 0 * 256 + b.getD 2 0,
                (b.getD 3 0 &&& 15) * 16777216 + b.getD 4 0 * 65536 + b.getD 5 0 * 256 + b.getD 6 0)
  | 32 => some (b.getD 0 0 * 16777216 + b.getD 1 0 * 65536 + b.getD 2 0 * 256 + b.getD 3 0,
                b.getD 4 0 * 16777216 + b.getD 5 0 * 65536 + b.getD 6 0 * 256 + b.getD 7 0)
  | _ => none

theorem and255_eq_mod (x : Nat) : x &&& 255 = x % 256 := by
  have h := Nat.and_pow_two_sub_one_eq_mod x 8
  norm_num at h
  exact h

theorem and15_eq_mod (x : Nat) : x &&& 15 = x % 16 := by
  have h := Nat.and_pow_two_sub_one_eq_mod x 4
  norm_num at h
  exact h

theorem nibbleOr : ∀ x y : Fin 16, ((x.val <<< 4) ||| y.val) = 16 * x.val + y.val := by
  decide

theorem or16 (x y : Nat) (hx : x < 16) (hy : y < 16) :
    ((x <<< 4) ||| y) = 16 * x + y :=
  nibbleOr ⟨x, hx⟩ ⟨y, hy⟩

/-- Modelled from the spec: data values handed to the trie are represented
by their canonical byte encodings (the Data Writer pools on the canonical
encoding, so this identification is faithful for offsets and pooling). -/
abbrev DataType := List Nat

/-- Modelled from the spec: the Data Writer (type dataWriter, not under
src/) is an append-only byte buffer plus a pool mapping a value's canonical
encoding to its already-emitted offset. -/
structure DataWriter where
  buf : List Nat
  pool : List (List Nat × Nat)
deriving DecidableEq, Repr

/-- Modelled from the spec: dataWriter.write returns the pooled offset for
an already-written value, otherwise appends the value's bytes and returns
the offset at which they start. -/
def DataWriter.write (dw : DataWriter) (v : DataType) : Nat × DataWriter :=
  match dw.pool.lookup v with
  | some off => (off, dw)
  | none => (dw.buf.length, ⟨dw.buf ++ v, (v, dw.buf.length) :: dw.pool⟩)

/-- Modelled from the spec: trie nodes (type node, not under src/).  The
source distinguishes leaf from internal by nil children; internal nodes
carry the node-num field assigned by finalize (zero, the Go zero value,
before finalization). -/
inductive Node where
  | leaf : Option DataType → Node
  | internal : Nat → Node → Node → Node
deriving DecidableEq, Repr

def Node.isLeaf : Node → Bool
  | .leaf _ => true
  | .internal _ _ _ => false

/-- Modelled from the spec: bit i of a big-endian address byte sequence
(the trie descends most-significant bit first). -/
def getBit (ip : List Nat) (i : Nat) : Nat :=
  ip.getD (i / 8) 0 >>> (7 - i % 8) &&& 1

/-- Modelled from the spec: node.insert (not under src/).  Descends from
depth following address bits; a leaf on the path is materialized into an
internal node whose two children copy it; at depth prefixLen - 1 the
selected child slot is replaced by a valued leaf.  The recursion is driven
by rem = prefixLen - depth, the number of address bits still to consume
(rem decreases structurally, so the definition computes); the stop case
rem ≤ 1 is the spec's stop condition depth + 1 = prefixLen at every call
reachable from Tree.insert, which maintains rem = prefixLen - depth ≥ 1. -/
def Node.insert : Node → List Nat → Nat → Nat → DataType → Node
  | n, ip, rem, depth, value =>
    let cs : Nat × Node × Node :=
      match n with
      | .leaf v => (0, .leaf v, .leaf v)
      | .internal num l r => (num, l, r)
    match rem with
    | remm + 2 =>
        if getBit ip depth = 0 then
          .internal cs.1 (cs.2.1.insert ip (remm + 1) (depth + 1) value) cs.2.2
        else
          .internal cs.1 cs.2.1 (cs.2.2.insert ip (remm + 1) (depth + 1) value)
    | _ =>
        if getBit ip depth = 0 then .internal cs.1 (.leaf (some value)) cs.2.2
        else .internal cs.1 cs.2.1 (.leaf (some value))

/-- Modelled from the spec: node.get (not under src/): descend following
address bits, stop at the first leaf, return the depth reached and the
leaf's value. -/
def Node.get : Node → List Nat → Nat → Nat × Option DataType
  | .leaf v, _, depth => (depth, v)
  | .internal _ l r, ip, depth =>
      if getBit ip depth = 0 then l.get ip (depth + 1) else r.get ip (depth + 1)

/-- Modelled from the spec: node.finalize (not under src/): assigns node-num
in pre-order starting from the given next free number, returning the
renumbered node and the next free number (so root.finalize 0 returns the
node count). -/
def Node.finalize : Node → Nat → Node × Nat
  | .leaf v, n => (.leaf v, n)
  | .internal _ l r, n =>
      let lp := Node.finalize l (n + 1)
      let rp := Node.finalize r lp.2
      (.internal n lp.1 rp.1, rp.2)

/-- Tree state (struct Tree of tree.go); strings are their ASCII bytes. -/
structure Tree where
  buildEpoch : Nat
  databaseType : List Nat
  description : List (List Nat × List Nat)
  ipVersion : Nat
  languages : List (List Nat)
  recordSize : Nat
  root : Node
  treeDepth : Nat
  nodeCount : Nat
deriving DecidableEq, Repr

/-- Options (struct Options of tree.go); Go zero values are 0 for the int
fields and none for the nil map and slice fields. -/
structure Options where
  buildEpoch : Nat
  databaseType : List Nat
  description : Option (List (List Nat × List Nat))
  ipVersion : Nat
  languages : Option (List (List Nat))
  recordSize : Nat
deriving DecidableEq, Repr

/-- New (tree.go): defaults, overrides from nonzero or non-nil option
fields, and the ip-version switch fixing the tree depth; the default switch
branch is the unsupported-IPVersion error return. -/
def New (now : Nat) (opts : Options) : Except Err Tree :=
  let t : Tree := {
    buildEpoch := if opts.buildEpoch ≠ 0 then opts.buildEpoch else now
    databaseType := opts.databaseType
    description := opts.description.getD []
    ipVersion := if opts.ipVersion ≠ 0 then opts.ipVersion else 6
    languages := opts.languages.getD []
    recordSize := if opts.recordSize ≠ 0 then opts.recordSize else 28
    root := .leaf none
    treeDepth := 0
    nodeCount := 0 }
  if t.ipVersion = 6 then .ok { t with treeDepth := 128 }
  else if t.ipVersion = 4 then .ok { t with treeDepth := 32 }
  else .error .unsupportedIPVersion

/-- Bytes of the v4Prefix variable (tree.go): twelve zero bytes. -/
def v4PrefixBytes : List Nat := List.replicate 12 0

/-- ipV4ToV6 (tree.go): prepends the twelve zero bytes. -/
def ipV4ToV6 (ip : List Nat) : List Nat := v4PrefixBytes ++ ip

/-- Insert (tree.go).  Returns the updated tree together with the error
result, since the receiver is mutated before validation (nodeCount is reset
first).  The network argument is given as its (address bytes, mask prefix
length) pair. -/
def Tree.insert (t : Tree) (ip : List Nat) (prefixLen : Nat) (value : DataType) :
    Tree × Option Err :=
  let t := { t with nodeCount := 0 }
  if prefixLen = 0 then (t, some .invalidPrefixLen)
  else
    let p : List Nat × Nat :=
      if t.treeDepth = 128 ∧ ip.length = 4 then (ipV4ToV6 ip, prefixLen + 96)
      else (ip, prefixLen)
    ({ t with root := t.root.insert p.1 p.2 0 value }, none)

/-- Go net.IP.To4: a 4-byte address is returned as is; a 16-byte address
with the IPv4-mapped prefix (ten zero bytes then 0xff 0xff) yields its last
four bytes; anything else yields none (nil). -/
def to4 (ip : List Nat) : Option (List Nat) :=
  if ip.length = 4 then some ip
  else if ip.length = 16 ∧ ip.take 12 = [0, 0, 0, 0, 0, 0, 0, 0, 0, 0, 255, 255] then
    some (ip.drop 12)
  else none

/-- Go net.CIDRMask: none models the nil mask (returned when ones exceeds
bits or the bit count is not that of an IPv4 or IPv6 address); otherwise
bits/8 bytes whose first `ones` bits are set. -/
def cidrMask (ones bits : Nat) : Option (List Nat) :=
  if (bits = 32 ∨ bits = 128) ∧ ones ≤ bits then
    some ((List.range (bits / 8)).map fun i =>
      if 8 * (i + 1) ≤ ones then 255
      else if ones ≤ 8 * i then 0
      else 255 - (255 >>> (ones - 8 * i)))
  else none

/-- Go net.IP.Mask: drops the first 12 bytes of a 16-byte mask against a
4-byte address when those bytes are all 0xff, drops the first 12 bytes of
an IPv4-in-IPv6 mapped 16-byte address against a 4-byte mask, then ands
bytewise; none models the nil result on length mismatch.  A none mask (Go
nil) has length 0 and always mismatches. -/
def ipNetMask (ip : List Nat) (mask : Option (List Nat)) : Option (List Nat) :=
  let m0 := mask.getD []
  let m1 :=
    if m0.length = 16 ∧ ip.length = 4 ∧ (m0.take 12).all (fun b => b = 255) then m0.drop 12
    else m0
  let ip1 :=
    if m1.length = 4 ∧ ip.length = 16 ∧ ip.take 12 = [0, 0, 0, 0, 0, 0, 0, 0, 0, 0, 255, 255] then
      ip.drop 12
    else ip
  if ip1.length = m1.length then some (List.zipWith (fun a b => a &&& b) ip1 m1) else none

/-- Result of Get (tree.go): the returned IPNet's IP and Mask components
(none models a nil byte slice) and the value pointer. -/
structure GetResult where
  ip : Option (List Nat)
  mask : Option (List Nat)
  value : Option DataType
deriving DecidableEq, Repr

/-- Get (tree.go). -/
def Tree.get (t : Tree) (ip : List Nat) : GetResult :=
  let lookupIP :=
    if t.treeDepth = 128 then
      match to4 ip with
      | some ipv4 => ipV4ToV6 ipv4
      | none => ip
    else ip
  let res := t.root.get lookupIP 0
  let prefixLen := if 96 ≤ res.1 ∧ ip.length = 4 then res.1 - 96 else res.1
  let mask := cidrMask prefixLen t.treeDepth
  { ip := ipNetMask ip mask, mask := mask, value := res.2 }

/-- Finalize (tree.go): renumbers the root via node finalize starting at 0
and stores the returned count. -/
def Tree.finalize (t : Tree) : Tree :=
  let fp := t.root.finalize 0
  { t with root := fp.1, nodeCount := fp.2 }

/-- dataSectionSeparator (tree.go): sixteen zero bytes. -/
def dataSectionSeparator : List Nat := List.replicate 16 0

/-- metadataStartMarker (tree.go): 0xAB 0xCD 0xEF followed by the ASCII
bytes of MaxMind.com. -/
def metadataStartMarker : List Nat := [171, 205, 239] ++ asciiBytes ("MaxMind.com")

/-- Modelled from the spec: payload-length ladder of the canonical value
encoding: lengths below 29 are stored in the low five control bits, larger
lengths spill into one to three following bytes with the documented biases. -/
def lengthBits (len : Nat) : Nat × List Nat :=
  if len < 29 then (len, [])
  else if len < 285 then (29, [len - 29])
  else if len < 65821 then (30, [(len - 285) / 256, (len - 285) % 256])
  else (31, [(len - 65821) / 65536, (len - 65821) / 256 % 256, (len - 65821) % 256])

/-- Modelled from the spec: control bytes of the canonical value encoding;
a primary type code (1..7) occupies the high three control bits, an
extended code is stored with offset 7 in the byte following the control
byte. -/
def controlBytes (typeCode payloadLen : Nat) : List Nat :=
  let lb := lengthBits payloadLen
  if typeCode ≤ 7 then ((typeCode <<< 5) ||| lb.1) :: lb.2
  else lb.1 :: (typeCode - 7) :: lb.2

/-- Modelled from the spec: minimal big-endian bytes of an unsigned
integer, with an explicit structural fuel so the definition computes; the
fuel bounds the number of emitted bytes and n itself always suffices. -/
def beBytesAux : Nat → Nat → List Nat
  | 0, _ => []
  | fuel + 1, n => if n = 0 then [] else beBytesAux fuel (n / 256) ++ [n % 256]

/-- Modelled from the spec: minimal big-endian bytes of an unsigned integer
(leading zero bytes elided; zero encodes with an empty payload). -/
def beBytes (n : Nat) : List Nat := beBytesAux n n

/-- Modelled from the spec: encoded utf8-string value (primary type 2). -/
def encodeString (s : List Nat) : List Nat := controlBytes 2 s.length ++ s

/-- Modelled from the spec: encoded uint16 value (primary type 5). -/
def encodeUint16 (n : Nat) : List Nat := controlBytes 5 (beBytes n).length ++ beBytes n

/-- Modelled from the spec: encoded uint32 value (primary type 6). -/
def encodeUint32 (n : Nat) : List Nat := controlBytes 6 (beBytes n).length ++ beBytes n

/-- Modelled from the spec: encoded uint64 value (extended type 9). -/
def encodeUint64 (n : Nat) : List Nat := controlBytes 9 (beBytes n).length ++ beBytes n

/-- Lexicographic byte-list comparison used to fix a deterministic key
order for serialized maps. -/
def lexLe : List Nat → List Nat → Bool
  | [], _ => true
  | _ :: _, [] => false
  | a :: as, b :: bs => if a < b then true else if b < a then false else lexLe as bs

def insertSorted (x : List Nat × List Nat) :
    List (List Nat × List Nat) → List (List Nat × List Nat)
  | [] => [x]
  | y :: ys => if lexLe x.1 y.1 then x :: y :: ys else y :: insertSorted x ys

def sortByKey (l : List (List Nat × List Nat)) : List (List Nat × List Nat) :=
  l.foldr insertSorted []

/-- Modelled from the spec: writeMetadata (tree.go) serializes the nine-key
metadata map through Map.writeTo (not under src/) as one encoded map value.
Go map iteration order is not deterministic while the spec requires
byte-identical repeated writes, so the serializer must fix an order; keys
are emitted here in sorted order (the nine top-level keys are listed
already sorted). -/
def metadataBytes (t : Tree) : List Nat :=
  let desc := sortByKey t.description
  let descBytes := controlBytes 7 desc.length
    ++ desc.flatMap (fun kv => encodeString kv.1 ++ encodeString kv.2)
  let langBytes := controlBytes 11 t.languages.length ++ t.languages.flatMap encodeString
  controlBytes 7 9
    ++ encodeString (asciiBytes ("binary_format_major_version")) ++ encodeUint16 2
    ++ encodeString (asciiBytes ("binary_format_minor_version")) ++ encodeUint16 0
    ++ encodeString (asciiBytes ("build_epoch")) ++ encodeUint64 t.buildEpoch
    ++ encodeString (asciiBytes ("database_type")) ++ encodeString t.databaseType
    ++ encodeString (asciiBytes ("description")) ++ descBytes
    ++ encodeString (asciiBytes ("ip_version")) ++ encodeUint16 t.ipVersion
    ++ encodeString (asciiBytes ("languages")) ++ langBytes
    ++ encodeString (asciiBytes ("node_count")) ++ encodeUint32 t.nodeCount
    ++ encodeString (asciiBytes ("record_size")) ++ encodeUint16 t.recordSize

/-- recordValueForNode (tree.go): node-num for an internal child, the
stored node count for an empty leaf, node count plus separator length plus
the data writer offset for a valued leaf. -/
def Tree.recordValueForNode (t : Tree) (n : Node) (dw : DataWriter) : Nat × DataWriter :=
  match n with
  | .leaf (some v) =>
      let wr := dw.write v
      (t.nodeCount + dataSectionSeparator.length + wr.1, wr.2)
  | .leaf none => (t.nodeCount, dw)
  | .internal num _ _ => (num, dw)

/-- copyRecord (tree.go): computes both child record values, then packs
them per the record-size switch; the default switch branch is the
unsupported-record-size error return. -/
def Tree.copyRecord (t : Tree) (left right : Node) (dw : DataWriter) :
    Except Err (List Nat × DataWriter) :=
  let lw := t.recordValueForNode left dw
  let rw := t.recordValueForNode right lw.2
  match packRecord t.recordSize lw.1 rw.1 with
  | some bytes => .ok (bytes, rw.2)
  | none => .error .unsupportedRecordSize

/-- Result of one writeNode traversal: nodes written, the count
accumulated from the sink write return values, the byte stream written,
the updated data writer, and the error if any. -/
structure NodeWriteResult where
  nodesWritten : Nat
  numBytes : Nat
  out : List Nat
  dw : DataWriter
  err : Option Err
deriving DecidableEq, Repr

/-- writeNode (tree.go): pre-order emission of the packed records (record
of the node itself, then the left subtree, then the right subtree);
leaves write nothing.  numBytes accumulates each write's returned length
exactly as the source's int64 counter does. -/
def Tree.writeNode (t : Tree) : Node → DataWriter → NodeWriteResult
  | .leaf _, dw => ⟨0, 0, [], dw, none⟩
  | .internal _ l r, dw =>
      match t.copyRecord l r dw with
      | .error e => ⟨0, 0, [], dw, some e⟩
      | .ok res =>
          let lres := t.writeNode l res.2
          match lres.err with
          | some e =>
              ⟨1 + lres.nodesWritten, res.1.length + lres.numBytes,
               res.1 ++ lres.out, lres.dw, some e⟩
          | none =>
              let rres := t.writeNode r lres.dw
              ⟨1 + lres.nodesWritten + rres.nodesWritten,
               res.1.length + lres.numBytes + rres.numBytes,
               res.1 ++ lres.out ++ rres.out, rres.dw, rres.err⟩

/-- Result of WriteTo: the byte stream written to the sink, the returned
count, and the error if any. -/
structure WriteResult where
  out : List Nat
  numBytes : Nat
  err : Option Err
deriving DecidableEq, Repr

/-- WriteTo (tree.go), against a sink that accepts every write (sink
failures and short writes are outside this model): the not-finalized guard,
the pre-order node walk with a fresh data writer, the written-node count
check, then separator, data section, metadata marker and metadata, with the
returned count accumulated from the individual write counts as in the
source. -/
def Tree.writeTo (t : Tree) : WriteResult :=
  if t.nodeCount = 0 then ⟨[], 0, some .notFinalized⟩
  else
    let res := t.writeNode t.root ⟨[], []⟩
    match res.err with
    | some e => ⟨res.out, res.numBytes, some e⟩
    | none =>
        if res.nodesWritten ≠ t.nodeCount then
          ⟨res.out, res.numBytes, some .internalInconsistency⟩
        else
          let meta := metadataBytes t
          ⟨res.out ++ dataSectionSeparator ++ res.dw.buf ++ metadataStartMarker ++ meta,
           res.numBytes + dataSectionSeparator.length + res.dw.buf.length
             + metadataStartMarker.length + meta.length,
           none⟩

theorem and15_lt (x : Nat) : x &&& 15 < 16 := by
  rw [and15_eq_mod]
  exact Nat.mod_lt _ (by norm_num)

/-- C1: for record values left, right below 2^recordSize and recordSize in
{24, 28, 32}, reading the packed record back per the specified bit layout
recovers (left, right) exactly; moreover for 28-bit records byte 3 carries
the high nibble of left in its upper 4 bits and the high nibble of right
in its lower 4 bits. -/
theorem packRecord_roundTrip (recordSize left right : Nat)
    (hrs : recordSize = 24 ∨ recordSize = 28 ∨ recordSize = 32)
    (hl : left < 2 ^ recordSize) (hr : right < 2 ^ recordSize) :
    (packRecord recordSize left right).bind (unpackRecord recordSize) = some (left, right)
    ∧ (recordSize = 28 →
        ∀ b, packRecord recordSize left right = some b →
          b.getD 3 0 >>> 4 = left >>> 24 &&& 15 ∧ b.getD 3 0 &&& 15 = right >>> 24 &&& 15) := by
  rcases hrs with h | h | h <;> subst h
  · refine ⟨?_, by simp⟩
    simp only [packRecord, unpackRecord, Option.bind, List.getD, List.get?, List.head?,
      Option.getD, Option.some.injEq, Prod.mk.injEq]
    simp only [Nat.shiftRight_eq_div_pow, and255_eq_mod]
    norm_num at hl hr ⊢
    omega
  · constructor
    · simp only [packRecord, unpackRecord, Option.bind, List.getD, List.get?, List.head?,
        Option.getD, Option.some.injEq, Prod.mk.injEq]
      rw [or16 _ _ (and15_lt _) (and15_lt _)]
      simp only [Nat.shiftRight_eq_div_pow, and255_eq_mod, and15_eq_mod]
      norm_num at hl hr ⊢
      omega
    · intro _ b hb
      simp only [packRecord, Option.some.injEq] at hb
      subst hb
      simp only [List.getD, List.get?, List.head?, Option.getD]
      rw [or16 _ _ (and15_lt _) (and15_lt _)]
      simp only [Nat.shiftRight_eq_div_pow, and255_eq_mod, and15_eq_mod]
      norm_num
      omega
  · refine ⟨?_, by simp⟩
    simp only [packRecord, unpackRecord, Option.bind, List.getD, List.get?, List.head?,
      Option.getD, Option.some.injEq, Prod.mk.injEq]
    simp only [Nat.shiftRight_eq_div_pow, and255_eq_mod]
    norm_num at hl hr ⊢
    omega

/-- Closed instance of packRecord_roundTrip at recordSize 28 with both high
nibbles nonzero. -/
theorem packRecord_roundTrip_witness :
    ((28 = 24 ∨ 28 = 28 ∨ 28 = 32) ∧ 180150000 < 2 ^ 28 ∧ 250000000 < 2 ^ 28)
    ∧ ((packRecord 28 180150000 250000000).bind (unpackRecord 28) = some (180150000, 250000000)
    ∧ (28 = 28 →
        ∀ b, packRecord 28 180150000 250000000 = some b →
          b.getD 3 0 >>> 4 = 180150000 >>> 24 &&& 15
          ∧ b.getD 3 0 &&& 15 = 250000000 >>> 24 &&& 15)) :=
  ⟨⟨by decide, by decide, by decide⟩,
    packRecord_roundTrip 28 180150000 250000000 (by decide) (by decide) (by decide)⟩

/-- Options record with every field at its Go zero value. -/
def defaultOptions : Options :=
  { buildEpoch := 0, databaseType := [], description := none,
    ipVersion := 0, languages := none, recordSize := 0 }

/-- Tree produced by New 1 defaultOptions. -/
def sampleBase : Tree :=
  { buildEpoch := 1, databaseType := [], description := [], ipVersion := 6,
    languages := [], recordSize := 28, root := .leaf none, treeDepth := 128,
    nodeCount := 0 }

/-- Finalized one-node tree: a /1 network with value bytes [65, 66]
inserted into the fresh default tree. -/
def sampleTree : Tree :=
  ((sampleBase.insert (List.replicate 16 0) 1 [65, 66]).1).finalize

/-- C2: during WriteTo the record value computed for a child slot is the
child's node-num when the child is internal, the stored node count when
the child is an empty leaf, and node count + 16 + o when the child is a
valued leaf, where o is the byte offset the Data Writer returns for the
child's serialized value; 16 is exactly the data section separator
length. -/
theorem recordValueForNode_cases (t : Tree) (dw : DataWriter) :
    (∀ num l r, t.recordValueForNode (.internal num l r) dw = (num, dw))
    ∧ t.recordValueForNode (.leaf none) dw = (t.nodeCount, dw)
    ∧ (∀ v, t.recordValueForNode (.leaf (some v)) dw
        = (t.nodeCount + 16 + (dw.write v).1, (dw.write v).2))
    ∧ dataSectionSeparator.length = 16 := by
  refine ⟨fun num l r => rfl, rfl, fun v => ?_, rfl⟩
  simp [Tree.recordValueForNode, dataSectionSeparator]

/-- Tree with record-size 24 whose stored node count is 3, used to
exercise the record packing at an overflowing record value. -/
def overflowTree : Tree :=
  { buildEpoch := 1, databaseType := [], description := [], ipVersion := 6,
    languages := [], recordSize := 24, root := .leaf none, treeDepth := 128,
    nodeCount := 3 }

/-- C3 (behavior at the failing input): copyRecord performs no overflow
check — the source holds only an XXX comment where the spec requires a
RecordOverflow error.  A left child with node-num 2^24 + 5 at record-size
24 is silently packed as the truncated value 5 (the right child, an empty
leaf, packs as the node count 3), with no error. -/
theorem copyRecord_overflow_truncated :
    overflowTree.copyRecord (.internal 16777221 (.leaf none) (.leaf none)) (.leaf none) ⟨[], []⟩
      = .ok ([0, 0, 5, 0, 0, 3], ⟨[], []⟩)
    ∧ packRecord 24 16777221 3 = packRecord 24 5 3 := by
  constructor
  · rfl
  · rfl

/-- C4 counterexample: on a finalized tree with node count 1, Insert with
prefix length 0 returns the invalid-prefix error yet does not leave every
field unchanged: the finalized node count has been reset to 0. -/
theorem insert_zero_resets_nodeCount :
    (sampleTree.insert [1, 2, 3, 4] 0 [7]).2 = some Err.invalidPrefixLen
    ∧ sampleTree.nodeCount = 1
    ∧ (sampleTree.insert [1, 2, 3, 4] 0 [7]).1.nodeCount = 0 := by
  refine ⟨rfl, rfl, rfl⟩

/-- C4 amended: Insert with prefix length 0 returns the invalid-prefix
error and leaves the trie and every other field unchanged except the node
count, which is unconditionally reset to 0 before the validation runs. -/
theorem insert_zero_amended (t : Tree) (ip : List Nat) (v : DataType) :
    t.insert ip 0 v = ({ t with nodeCount := 0 }, some Err.invalidPrefixLen) := by
  simp [Tree.insert]

/-- Tree produced by New 1 with ip-version 4: an IPv4 tree of depth 32. -/
def v4Base : Tree :=
  { buildEpoch := 1, databaseType := [], description := [], ipVersion := 4,
    languages := [], recordSize := 28, root := .leaf none, treeDepth := 32,
    nodeCount := 0 }

/-- C5 (behavior at the failing input): Insert on an IPv4 tree contains no
address-family check — only the depth-128 conversion branch tests the
address length — so inserting the 16-byte IPv6 network ::1/128 into an
IPv4 tree returns no error and modifies the trie. -/
theorem v4Tree_accepts_v6_insert :
    New 1 { defaultOptions with ipVersion := 4 } = .ok v4Base
    ∧ (v4Base.insert (List.replicate 15 0 ++ [1]) 128 [7]).2 = none
    ∧ (v4Base.insert (List.replicate 15 0 ++ [1]) 128 [7]).1.root ≠ v4Base.root := by
  refine ⟨rfl, rfl, ?_⟩
  decide

/-- Depth-128 tree holding the IPv4 network 1.1.1.1/32 with value bytes
[65], inserted as the zero-prefixed v6 network at prefix length 128. -/
def t6 : Tree := (sampleBase.insert [1, 1, 1, 1] 32 [65]).1

/-- C6 (behavior at the failing input): the 4-byte address is converted by
prepending exactly twelve zero bytes and the insert prefix length is
raised by 96 (the value sits at depth 32 + 96 = 128 under the zero-prefixed
address); on Get with the 4-byte address the matched length 128 is reduced
by 96 to 32 and the mask is the 16-byte CIDRMask(32, 128) — but masking the
4-byte address with that 16-byte mask yields nil, so the returned network
address is nil rather than the address masked to /32. -/
theorem get_v4_returns_nil_ip :
    ipV4ToV6 [1, 1, 1, 1] = List.replicate 12 0 ++ [1, 1, 1, 1]
    ∧ (sampleBase.insert [1, 1, 1, 1] 32 [65]).2 = none
    ∧ t6.root.get (ipV4ToV6 [1, 1, 1, 1]) 0 = (128, some [65])
    ∧ (t6.get [1, 1, 1, 1]).mask = some (List.replicate 4 255 ++ List.replicate 12 0)
    ∧ (t6.get [1, 1, 1, 1]).value = some [65]
    ∧ (t6.get [1, 1, 1, 1]).ip = none := by
  refine ⟨rfl, rfl, ?_, ?_, ?_, ?_⟩ <;> decide

/-- Inversion for New: every successfully constructed tree starts with
node count 0 and an empty-leaf root. -/
theorem New_ok_inv (now : Nat) (opts : Options) (t : Tree) (h : New now opts = .ok t) :
    t.nodeCount = 0 ∧ t.root = .leaf none := by
  simp only [New] at h
  by_cases h0 : opts.ipVersion = 0
  · simp only [h0, ne_eq, not_true_eq_false, ite_false, reduceIte] at h
    cases h
    exact ⟨rfl, rfl⟩
  · simp only [ne_eq, h0, not_false_eq_true, ite_true] at h
    by_cases h6 : opts.ipVersion = 6
    · simp only [h6, reduceIte] at h
      cases h
      exact ⟨rfl, rfl⟩
    · by_cases h4 : opts.ipVersion = 4
      · simp only [h6, h4, reduceIte] at h
        cases h
        exact ⟨rfl, rfl⟩
      · simp only [h6, h4, reduceIte] at h
        cases h

/-- Insert resets the stored node count to 0 on every call, before any
validation. -/
theorem insert_resets_nodeCount (t : Tree) (ip : List Nat) (prefixLen : Nat) (v : DataType) :
    (t.insert ip prefixLen v).1.nodeCount = 0 := by
  unfold Tree.insert
  split
  · rfl
  · rfl

/-- C7: a tree that has never been finalized (fresh from New) or whose
finalization was invalidated by a subsequent Insert has node count 0, so
WriteTo fails with the not-finalized error, reports 0 bytes and writes
nothing to the sink. -/
theorem writeTo_notFinalized (t0 t : Tree) (now : Nat) (opts : Options)
    (ip : List Nat) (prefixLen : Nat) (v : DataType)
    (h : New now opts = .ok t ∨ t = (t0.insert ip prefixLen v).1) :
    t.nodeCount = 0 ∧ t.writeTo = ⟨[], 0, some Err.notFinalized⟩ := by
  have hnc : t.nodeCount = 0 := by
    rcases h with h | h
    · exact (New_ok_inv now opts t h).1
    · subst h
      exact insert_resets_nodeCount t0 ip prefixLen v
  refine ⟨hnc, ?_⟩
  simp [Tree.writeTo, hnc]

/-- Closed instance of writeTo_notFinalized: the fresh default tree. -/
theorem writeTo_notFinalized_witness :
    (New 1 defaultOptions = .ok sampleBase
        ∨ sampleBase = ((sampleBase.insert [1] 2 []).1))
    ∧ (sampleBase.nodeCount = 0
        ∧ sampleBase.writeTo = ⟨[], 0, some Err.notFinalized⟩) :=
  ⟨Or.inl rfl,
    writeTo_notFinalized sampleBase sampleBase 1 defaultOptions [1] 2 [] (Or.inl rfl)⟩

/-- The count writeNode accumulates from the sink write return values
equals the length of the byte stream it writes. -/
theorem writeNode_numBytes (t : Tree) :
    ∀ n dw, (t.writeNode n dw).numBytes = (t.writeNode n dw).out.length := by
  intro n
  induction n with
  | leaf v => intro dw; rfl
  | internal num l r ihl ihr =>
    intro dw
    unfold Tree.writeNode
    cases hc : t.copyRecord l r dw with
    | error e => rfl
    | ok res =>
      simp only []
      cases herr : (t.writeNode l res.2).err with
      | some e =>
        simp only [herr, List.length_append, ihl]
      | none =>
        simp only [herr, List.length_append, ihl, ihr]
        try omega

/-- C8: a successful WriteTo emits exactly, in order, the pre-order node
records, the sixteen zero bytes of the data section separator, the data
writer's accumulated data section, the fourteen-byte metadata start marker
0xAB 0xCD 0xEF followed by ASCII MaxMind.com, and the metadata map bytes;
and the returned count equals the total number of bytes written. -/
theorem writeTo_layout (t : Tree) (h : (t.writeTo).err = none) :
    (t.writeTo).out
      = (t.writeNode t.root ⟨[], []⟩).out
        ++ List.replicate 16 0
        ++ (t.writeNode t.root ⟨[], []⟩).dw.buf
        ++ ([171, 205, 239] ++ asciiBytes ("MaxMind.com"))
        ++ metadataBytes t
    ∧ (t.writeTo).numBytes = (t.writeTo).out.length := by
  unfold Tree.writeTo at h ⊢
  by_cases h0 : t.nodeCount = 0
  · simp [h0] at h
  · simp only [h0, reduceIte, ite_false] at h ⊢
    cases herr : (t.writeNode t.root ⟨[], []⟩).err with
    | some e =>
      simp only [herr] at h
      exact Option.noConfusion h
    | none =>
      simp only [herr] at h ⊢
      by_cases hn : (t.writeNode t.root ⟨[], []⟩).nodesWritten ≠ t.nodeCount
      · simp [hn] at h
      · simp only [hn, reduceIte, ite_false] at h ⊢
        refine ⟨?_, ?_⟩
        · simp [dataSectionSeparator, metadataStartMarker]
        · simp [List.length_append, writeNode_numBytes, dataSectionSeparator,
            metadataStartMarker, asciiBytes]
          omega

/-- Closed instance of writeTo_layout on the finalized one-node sample
tree. -/
theorem writeTo_layout_witness :
    (sampleTree.writeTo).err = none
    ∧ ((sampleTree.writeTo).out
        = (sampleTree.writeNode sampleTree.root ⟨[], []⟩).out
          ++ List.replicate 16 0
          ++ (sampleTree.writeNode sampleTree.root ⟨[], []⟩).dw.buf
          ++ ([171, 205, 239] ++ asciiBytes ("MaxMind.com"))
          ++ metadataBytes sampleTree
        ∧ (sampleTree.writeTo).numBytes = (sampleTree.writeTo).out.length) :=
  ⟨rfl, writeTo_layout sampleTree rfl⟩

/-- C9 counterexample: construction with record-size 27 succeeds, returning
a tree that carries record-size 27, instead of failing with the
unsupported-record-size error. -/
theorem new_accepts_badRecordSize :
    New 5 { defaultOptions with recordSize := 27 }
      = .ok { buildEpoch := 5, databaseType := [], description := [], ipVersion := 6,
              languages := [], recordSize := 27, root := .leaf none, treeDepth := 128,
              nodeCount := 0 } := rfl

/-- C9 amended: construction fails — with the unsupported-IPVersion error —
exactly when the ip-version option (0 defaulting to 6) is neither 4 nor 6;
the record-size is not validated at construction, and an unsupported
record-size surfaces only later, from the packing switch of copyRecord,
which rejects exactly the sizes outside {24, 28, 32}. -/
theorem new_validation (now : Nat) (opts : Options) (l r : Nat) :
    ((∃ t, New now opts = .ok t)
        ↔ (opts.ipVersion = 0 ∨ opts.ipVersion = 4 ∨ opts.ipVersion = 6))
    ∧ (New now opts = .error Err.unsupportedIPVersion
        ↔ ¬(opts.ipVersion = 0 ∨ opts.ipVersion = 4 ∨ opts.ipVersion = 6))
    ∧ (packRecord opts.recordSize l r = none
        ↔ ¬(opts.recordSize = 24 ∨ opts.recordSize = 28 ∨ opts.recordSize = 32)) := by
  have hA : (opts.ipVersion = 0 ∨ opts.ipVersion = 4 ∨ opts.ipVersion = 6) →
      ∃ t, New now opts = .ok t := by
    intro hip
    cases hE : New now opts with
    | ok t => exact ⟨t, rfl⟩
    | error e =>
      exfalso
      rcases hip with h | h | h <;> simp [New, h] at hE
  have hB : ¬(opts.ipVersion = 0 ∨ opts.ipVersion = 4 ∨ opts.ipVersion = 6) →
      New now opts = .error Err.unsupportedIPVersion := by
    intro hip
    push_neg at hip
    obtain ⟨h0, h4, h6⟩ := hip
    simp [New, h0, h4, h6]
  refine ⟨⟨?_, hA⟩, ⟨?_, hB⟩, ⟨?_, ?_⟩⟩
  · intro ht
    obtain ⟨t, ht⟩ := ht
    by_contra hip
    rw [hB hip] at ht
    cases ht
  · intro herr hip
    obtain ⟨t, ht⟩ := hA hip
    rw [herr] at ht
    cases ht
  · intro hnone hrs
    rcases hrs with h | h | h <;> simp [packRecord, h] at hnone
  · intro hrs
    push_neg at hrs
    obtain ⟨h24, h28, h32⟩ := hrs
    unfold packRecord
    split <;> simp_all

/-- C10: a fresh tree into which nothing was inserted finalizes to node
count 0 (the root is a leaf), and WriteTo after this Finalize is still
rejected with the not-finalized error and byte count 0: the not-finalized
test is node-count = 0, which cannot distinguish a finalized empty tree
from an unfinalized one. -/
theorem finalize_empty_still_notFinalized (now : Nat) (opts : Options) (t : Tree)
    (h : New now opts = .ok t) :
    (t.finalize).nodeCount = 0
    ∧ (t.finalize).writeTo = ⟨[], 0, some Err.notFinalized⟩ := by
  obtain ⟨hnc, hroot⟩ := New_ok_inv now opts t h
  have hf : (t.finalize).nodeCount = 0 := by
    simp [Tree.finalize, hroot, Node.finalize]
  exact ⟨hf, by simp [Tree.writeTo, hf]⟩

/-- Closed instance of finalize_empty_still_notFinalized on the fresh
default tree. -/
theorem finalize_empty_witness :
    New 1 defaultOptions = .ok sampleBase
    ∧ ((sampleBase.finalize).nodeCount = 0
        ∧ (sampleBase.finalize).writeTo = ⟨[], 0, some Err.notFinalized⟩) :=
  ⟨rfl, finalize_empty_still_notFinalized 1 defaultOptions sampleBase rfl⟩

end Mmdb
